import Mathlib

/-!
# SEISMIC video generator: the animation driver and its phase renderers

A shallow embedding of `script.js`: the tick handler of `generateVideo`
(the wall-clock paced render loop), the phase dispatch, and the three phase
renderers `renderTerminalPhase`, `renderFadePhase`, `renderPFPPhase` together
with the character grid of `drawEncryptedCode`.

Timestamps are integers (milliseconds, as `Date.now()` returns them).
Quantities the source derives from them by division are exact rationals;
the rounding of IEEE doubles is not modelled.
-/

namespace Seismic

/-! ## Recording settings of `generateVideo` -/

/-- Source: `const canvasWidth = 1920`. -/
def canvasWidth : Nat := 1920

/-- Source: `const canvasHeight = 1080`. -/
def canvasHeight : Nat := 1080

/-- Source: `const fps = 30`. -/
def fps : Nat := 30

/-- Source: `const duration = 14`. -/
def duration : Nat := 14

/-- Source: `const totalFrames = fps * duration`. -/
def totalFrames : Nat := fps * duration

/-- Source: `const frameInterval = 1000 / fps`. -/
def frameInterval : ℚ := 1000 / (fps : ℚ)

/-- Source: `const maxFramesPerTick = 3`. -/
def maxFramesPerTick : Nat := 3

/-! ## Phase dispatch -/

/-- The renderer call made for one frame: which phase renderer is invoked and
the frame argument it is given. -/
inductive RenderCall where
  | terminal (frame : Nat)
  | fade (fadeFrame : Nat)
  | pfp (pfpFrame : Nat)
  deriving DecidableEq, Repr

/-- The `if / else if / else` chain in the body of the render loop. -/
def dispatch (currentFrame : Nat) : RenderCall :=
  if currentFrame < fps * 8 then
    RenderCall.terminal currentFrame
  else if currentFrame < fps * 9 then
    RenderCall.fade (currentFrame - fps * 8)
  else
    RenderCall.pfp (currentFrame - fps * 9)

/-! ## The tick handler -/

/-- Mutable state of the driver closure, together with the fixed `startTime`
and whether the interval is still installed (`clearInterval` not yet called). -/
structure Driver where
  startTime : Int
  currentFrame : Nat
  lastFrameTime : Int
  running : Bool
  deriving DecidableEq, Repr

/-- State right after `const startTime = Date.now(); let currentFrame = 0;
let lastFrameTime = Date.now();`. -/
def Driver.init (startTime lastFrameTime : Int) : Driver :=
  { startTime := startTime, currentFrame := 0, lastFrameTime := lastFrameTime, running := true }

/-- Source: `const elapsedTime = (now - startTime) / 1000`. -/
def elapsedTime (startTime now : Int) : ℚ := ((now - startTime : Int) : ℚ) / 1000

/-- Source: `const expectedFrame = Math.floor(elapsedTime * fps)`. -/
def expectedFrame (startTime now : Int) : Int := ⌊elapsedTime startTime now * (fps : ℚ)⌋

/-- Source: `const minFrameTime = frameInterval * 0.9`, which is 30 in exact
arithmetic (the double computed by the browser is `30.000000000000004`, so
there a gap of exactly 30 ms is skipped as well). -/
def minFrameTime : ℚ := frameInterval * (9 / 10)

/-- The `while` loop of the tick handler. Returns the value of `currentFrame`
when the loop exits and the frame indices for which the body ran, in order;
the body draws frame `currentFrame` through `dispatch currentFrame`. -/
def renderLoop (expected : Int) (currentFrame framesRendered : Nat) : Nat × List Nat :=
  if (currentFrame : Int) ≤ expected ∧ currentFrame < totalFrames
      ∧ framesRendered < maxFramesPerTick then
    let r := renderLoop expected (currentFrame + 1) (framesRendered + 1)
    (r.1, currentFrame :: r.2)
  else
    (currentFrame, [])
termination_by maxFramesPerTick - framesRendered
decreasing_by omega

/-- One invocation of the interval callback at wall-clock time `now`.
Returns the new driver state and the frame indices rendered by this tick.
Once the interval is cleared the callback is never invoked again, which is
modelled as a tick that does nothing. -/
def tick (s : Driver) (now : Int) : Driver × List Nat :=
  if s.running = false then (s, [])
  else
    let timeSinceLastFrame : Int := now - s.lastFrameTime
    if (timeSinceLastFrame : ℚ) < minFrameTime then
      (s, [])
    else if elapsedTime s.startTime now ≥ (duration : ℚ) then
      ({ s with running := false }, [])
    else if (s.currentFrame : Int) > expectedFrame s.startTime now then
      (s, [])
    else
      let r := renderLoop (expectedFrame s.startTime now) s.currentFrame 0
      ({ s with currentFrame := r.1, lastFrameTime := now }, r.2)

/-- The driver run over a schedule of tick times: final state and every frame
index rendered, in order. -/
def run (s : Driver) : List Int → Driver × List Nat
  | [] => (s, [])
  | now :: rest =>
    let r := tick s now
    let q := run r.1 rest
    (q.1, r.2 ++ q.2)

/-! ## Canvas operations

A renderer is modelled by the list of fill operations it issues, each with
the fill style in force when it is issued. Fonts, text alignment and shadow
settings are not recorded. -/

/-- Value assigned to `ctx.fillStyle`. -/
inductive FillStyle where
  | color (css : String)
  | linearGradient (x0 y0 x1 y1 : Nat) (stops : List (ℚ × String))
  | rgba (r g b : Nat) (alpha : ℚ)
  deriving DecidableEq

/-- One drawing call on the 2D context. -/
inductive DrawOp where
  | fillRect (style : FillStyle) (x y w h : Nat)
  | fillArc (style : FillStyle) (cx cy radius : Nat)
  | fillText (style : FillStyle) (text : String) (x : ℚ) (y : Nat)
  deriving DecidableEq

/-- The submitted form fields read by the terminal script. -/
structure FormData where
  username : String
  region : String
  magnitude : String

/-- One entry of the `lines` array of `renderTerminalPhase`. -/
structure Line where
  frame : Nat
  text : String
  color : String

/-- The background gradient created at the top of `renderTerminalPhase` and
`renderPFPPhase`. -/
def backgroundGradient (width height : Nat) : FillStyle :=
  FillStyle.linearGradient 0 0 width height
    [(0, "#2d2a35"), (6 / 10, "#1a1820"), (1, "#0f0e12")]

/-- The header bar, its three dots and its centred title. -/
def drawTerminalHeader (width : Nat) : List DrawOp :=
  let dotY := 90
  [ DrawOp.fillRect (FillStyle.color "#d893c3ff") 0 50 width 80,
    DrawOp.fillArc (FillStyle.color "#ff5f56") 50 dotY 8,
    DrawOp.fillArc (FillStyle.color "#ffbd2e") 90 dotY 8,
    DrawOp.fillArc (FillStyle.color "#27c93f") 130 dotY 8,
    DrawOp.fillText (FillStyle.color "#ffffffff") "SEISMIC://system" ((width : ℚ) / 2) 95 ]

/-- The `lines` array of `renderTerminalPhase`. -/
def lines (data : FormData) : List Line :=
  [ { frame := 15, text := "// Initializing SEISMIC System...", color := "#6a9955" },
    { frame := 40, text := "const blockchain = initSeismic();", color := "#dcdcaa" },
    { frame := 60, text := "✓ Privacy-enabled blockchain active", color := "#4ec9b0" },
    { frame := 75, text := "", color := "#d4d4d4" },
    { frame := 85, text := "// Loading member profile...", color := "#6a9955" },
    { frame := 105, text := "const member = \x7b", color := "#dcdcaa" },
    { frame := 125, text := "  username: \"" ++ data.username ++ "\",", color := "#ce9178" },
    { frame := 145, text := "  region: \"" ++ data.region ++ "\",", color := "#ce9178" },
    { frame := 165, text := "  magnitude: \"" ++ data.magnitude ++ "\"", color := "#ce9178" },
    { frame := 180, text := "\x7d;", color := "#dcdcaa" },
    { frame := 190, text := "", color := "#d4d4d4" },
    { frame := 200, text := "// Verifying credentials...", color := "#6a9955" },
    { frame := 215, text := "const verification = verify(member);", color := "#dcdcaa" },
    { frame := 225, text := "✓ Member verified", color := "#4ec9b0" },
    { frame := 230, text := "", color := "#d4d4d4" },
    { frame := 235, text := "console.log(\"Welcome to SEISMIC\");", color := "#9cdcfe" },
    { frame := 238, text := "// Building products users can trust", color := "#6a9955" } ]

/-- The `lines.forEach` loop: `yPos` advances by 40 for every line, drawn or
not, and a line is drawn only when `frame >= line.frame`. -/
def drawLines (frame : Nat) : List Line → Nat → List DrawOp
  | [], _ => []
  | line :: rest, yPos =>
    (if frame ≥ line.frame then
        [DrawOp.fillText (FillStyle.color line.color) line.text 100 yPos]
      else [])
      ++ drawLines frame rest (yPos + 40)

/-- Phase 1: background, header, then the script lines from `yPos = 180`. -/
def renderTerminalPhase (width height frame : Nat) (data : FormData) : List DrawOp :=
  DrawOp.fillRect (backgroundGradient width height) 0 0 width height
    :: (drawTerminalHeader width ++ drawLines frame (lines data) 180)

/-- The decoded picture, of which only the dimensions are used. -/
structure Image where
  width : Nat
  height : Nat

/-- What `renderPFPPhase` does with the picture: the alpha it sets, the clip
rectangle, the rectangle given to `drawImage`, and whether the character
overlay is drawn on top. -/
structure PFPFrame where
  globalAlpha : ℚ
  pfpX : ℚ
  pfpY : ℚ
  pfpWidth : ℚ
  pfpHeight : ℚ
  drawX : ℚ
  drawY : ℚ
  drawWidth : ℚ
  drawHeight : ℚ
  overlay : Bool

/-- Phase 3: cover fit of the picture into the area below the header. -/
def renderPFPPhase (width height : Nat) (pfpImg : Image) (frame _fps : Nat) : PFPFrame :=
  let headerHeight : ℚ := 130
  let pfpX : ℚ := 0
  let pfpY : ℚ := headerHeight
  let pfpWidth : ℚ := width
  let pfpHeight : ℚ := (height : ℚ) - headerHeight
  let globalAlpha : ℚ := min ((frame : ℚ) / 30) 1
  let imgRatio : ℚ := (pfpImg.width : ℚ) / (pfpImg.height : ℚ)
  let areaRatio : ℚ := pfpWidth / pfpHeight
  if imgRatio > areaRatio then
    let drawHeight := pfpHeight
    let drawWidth := pfpHeight * imgRatio
    { globalAlpha := globalAlpha, pfpX := pfpX, pfpY := pfpY, pfpWidth := pfpWidth,
      pfpHeight := pfpHeight,
      drawX := pfpX - (drawWidth - pfpWidth) / 2, drawY := pfpY,
      drawWidth := drawWidth, drawHeight := drawHeight,
      overlay := decide (frame > 30) }
  else
    let drawWidth := pfpWidth
    let drawHeight := pfpWidth / imgRatio
    { globalAlpha := globalAlpha, pfpX := pfpX, pfpY := pfpY, pfpWidth := pfpWidth,
      pfpHeight := pfpHeight,
      drawX := pfpX, drawY := pfpY - (drawHeight - pfpHeight) / 2,
      drawWidth := drawWidth, drawHeight := drawHeight,
      overlay := decide (frame > 30) }

/-! ## The character grid of `drawEncryptedCode` -/

/-- The 15-character alphabet `chars`. -/
def chars : String := "S$E@I1\x7bS\x7dM#I!C["

/-- Source: `const fontSize = 32`. -/
def fontSize : Nat := 32

/-- Source: `const charIndex = (row * columns + col + Math.floor(frame / 10)) % chars.length`. -/
def charIndex (columns row col frame : Nat) : Nat :=
  (row * columns + col + frame / 10) % chars.length

/-- The grid loops of `drawEncryptedCode`: for every cell that passes the
vertical bounds test, the character drawn and its position. The pulsing
alpha and glow, which use `Math.sin`, are not modelled. -/
def drawEncryptedCode (x y w h frame : Nat) : List (Option Char × Nat × Nat) :=
  let columns := w / fontSize
  let rows := h / fontSize
  (List.range rows).flatMap fun row =>
    (List.range columns).filterMap fun col =>
      let char := chars.toList[charIndex columns row col frame]?
      let charX := x + col * fontSize + 19
      let charY := y + (row + 1) * fontSize
      if charY > y ∧ charY < y + h then some (char, charX, charY) else none

/-- Sample form data. -/
def sampleData : FormData := { username := "quake42", region := "PNW", magnitude := "5.2" }

/-- A schedule of a throttled timer: one tick per second from 1 s to 14 s
after the start. -/
def throttledSchedule : List Int :=
  [1000, 2000, 3000, 4000, 5000, 6000, 7000, 8000, 9000, 10000, 11000, 12000, 13000, 14000]

/-! ## Basic facts about the loop -/

/-- Number of iterations the loop performs. -/
def loopCount (expected : Int) (currentFrame framesRendered : Nat) : Nat :=
  min (maxFramesPerTick - framesRendered)
    (Int.toNat (min (expected + 1) (totalFrames : Int) - (currentFrame : Int)))

theorem renderLoop_eq (expected : Int) (currentFrame framesRendered : Nat) :
    renderLoop expected currentFrame framesRendered =
      (currentFrame + loopCount expected currentFrame framesRendered,
        List.range' currentFrame (loopCount expected currentFrame framesRendered)) := by
  induction currentFrame, framesRendered using renderLoop.induct expected with
  | case1 c k h ih =>
    rw [renderLoop, if_pos h, ih]
    have hn : loopCount expected c k = loopCount expected (c + 1) (k + 1) + 1 := by
      unfold loopCount maxFramesPerTick at *
      omega
    rw [hn]
    simp [List.range'_succ]
    omega
  | case2 c k h =>
    rw [renderLoop, if_neg h]
    have hn : loopCount expected c k = 0 := by
      unfold loopCount maxFramesPerTick at *
      omega
    simp [hn]

theorem expectedFrame_eq (startTime now : Int) :
    expectedFrame startTime now = (now - startTime) * 30 / 1000 := by
  unfold expectedFrame elapsedTime fps
  rw [div_mul_eq_mul_div]
  have : (((now - startTime : Int) : ℚ) * ((30 : ℕ) : ℚ)) / 1000
      = (((now - startTime) * 30 : Int) : ℚ) / ((1000 : ℕ) : ℚ) := by
    push_cast; ring
  rw [this, Rat.floor_intCast_div_natCast]
  rfl

theorem debounce_iff (d : Int) : (d : ℚ) < minFrameTime ↔ d < 30 := by
  unfold minFrameTime frameInterval fps
  have : (1000 : ℚ) / ((30 : ℕ) : ℚ) * (9 / 10) = ((30 : Int) : ℚ) := by norm_num
  rw [this]
  exact Int.cast_lt

theorem stop_iff (startTime now : Int) :
    elapsedTime startTime now ≥ (duration : ℚ) ↔ now - startTime ≥ 14000 := by
  unfold elapsedTime duration
  rw [ge_iff_le, le_div_iff₀ (by norm_num)]
  have : ((14 : ℕ) : ℚ) * 1000 = ((14000 : Int) : ℚ) := by norm_num
  rw [this]
  exact Int.cast_le

/-- The tick handler with its rational comparisons turned into integer ones
and its loop replaced by the closed form of `renderLoop_eq`. -/
theorem tick_eq (s : Driver) (now : Int) :
    tick s now =
      if s.running = false then (s, [])
      else if now - s.lastFrameTime < 30 then (s, [])
      else if now - s.startTime ≥ 14000 then ({ s with running := false }, [])
      else if (s.currentFrame : Int) > (now - s.startTime) * 30 / 1000 then (s, [])
      else
        ({ s with
            currentFrame :=
              s.currentFrame + loopCount ((now - s.startTime) * 30 / 1000) s.currentFrame 0,
            lastFrameTime := now },
          List.range' s.currentFrame
            (loopCount ((now - s.startTime) * 30 / 1000) s.currentFrame 0)) := by
  unfold tick
  simp only [debounce_iff, stop_iff, expectedFrame_eq, renderLoop_eq]

theorem loopCount_le (expected : Int) (c k : Nat) : loopCount expected c k ≤ 3 := by
  unfold loopCount maxFramesPerTick
  omega

theorem loopCount_bound (expected : Int) (c k : Nat) (h : c ≤ 420) :
    c + loopCount expected c k ≤ 420 := by
  unfold loopCount maxFramesPerTick totalFrames fps duration
  omega

theorem tick_currentFrame_le (s : Driver) (now : Int) :
    s.currentFrame ≤ (tick s now).1.currentFrame := by
  rw [tick_eq]
  split_ifs <;> simp

theorem tick_currentFrame_bound (s : Driver) (now : Int) (h : s.currentFrame ≤ 420) :
    (tick s now).1.currentFrame ≤ 420 := by
  rw [tick_eq]
  split_ifs <;> simp [h, loopCount_bound]

theorem tick_frames (s : Driver) (now : Int) :
    (tick s now).2 =
      List.range' s.currentFrame ((tick s now).1.currentFrame - s.currentFrame) := by
  rw [tick_eq]
  split_ifs <;> simp

theorem run_currentFrame_le (s : Driver) (times : List Int) :
    s.currentFrame ≤ (run s times).1.currentFrame := by
  induction times generalizing s with
  | nil => simp [run]
  | cons now rest ih =>
    simp only [run]
    exact le_trans (tick_currentFrame_le s now) (ih _)

theorem run_currentFrame_bound (s : Driver) (times : List Int) (h : s.currentFrame ≤ 420) :
    (run s times).1.currentFrame ≤ 420 := by
  induction times generalizing s with
  | nil => simpa [run] using h
  | cons now rest ih =>
    simp only [run]
    exact ih _ (tick_currentFrame_bound s now h)

theorem run_frames (s : Driver) (times : List Int) :
    (run s times).2 =
      List.range' s.currentFrame ((run s times).1.currentFrame - s.currentFrame) := by
  induction times generalizing s with
  | nil => simp [run]
  | cons now rest ih =>
    simp only [run]
    rw [ih, tick_frames s now]
    have h1 := tick_currentFrame_le s now
    have h2 := run_currentFrame_le (tick s now).1 rest
    have h3 : (run (tick s now).1 rest).1.currentFrame - s.currentFrame
        = ((run (tick s now).1 rest).1.currentFrame - (tick s now).1.currentFrame)
          + ((tick s now).1.currentFrame - s.currentFrame) := by
      omega
    have h4 : s.currentFrame + ((tick s now).1.currentFrame - s.currentFrame)
        = (tick s now).1.currentFrame := by
      omega
    rw [h3, ← List.range'_append_1, h4]

/-! ## Claims about the driver -/

/-- C1: with fps = 30 and duration = 14 (420 frames), every frame index
`c < 420` is dispatched to exactly one renderer with its phase-local frame:
Terminal with `c` below 240, Fade with `c - 240` on `[240, 270)`, Reveal with
`c - 270` on `[270, 420)`; frames 239, 240, 269 and 270 go to Terminal, Fade 0,
Fade 29 and Reveal 0. -/
theorem dispatch_phase_partition (c : Nat) (h : c < totalFrames) :
    totalFrames = 420 ∧
    ((c < 240 ∧ dispatch c = RenderCall.terminal c) ∨
      (240 ≤ c ∧ c < 270 ∧ dispatch c = RenderCall.fade (c - 240)) ∨
      (270 ≤ c ∧ c < 420 ∧ dispatch c = RenderCall.pfp (c - 270))) ∧
    (c < 240 → dispatch c = RenderCall.terminal c) ∧
    (240 ≤ c → c < 270 → dispatch c = RenderCall.fade (c - 240)) ∧
    (270 ≤ c → dispatch c = RenderCall.pfp (c - 270)) ∧
    dispatch 239 = RenderCall.terminal 239 ∧
    dispatch 240 = RenderCall.fade 0 ∧
    dispatch 269 = RenderCall.fade 29 ∧
    dispatch 270 = RenderCall.pfp 0 := by
  have ht : totalFrames = 420 := by decide
  rw [ht] at h
  have h1 : c < 240 → dispatch c = RenderCall.terminal c := by
    intro hc
    simp [dispatch, fps, hc]
  have h2 : 240 ≤ c → c < 270 → dispatch c = RenderCall.fade (c - 240) := by
    intro hc hc2
    have : ¬ c < 240 := by omega
    simp [dispatch, fps, hc2, this]
  have h3 : 270 ≤ c → dispatch c = RenderCall.pfp (c - 270) := by
    intro hc
    have : ¬ c < 240 := by omega
    have : ¬ c < 270 := by omega
    simp [dispatch, fps, *]
  refine ⟨ht, ?_, h1, h2, h3, by decide, by decide, by decide, by decide⟩
  rcases Nat.lt_or_ge c 240 with hc | hc
  · exact Or.inl ⟨hc, h1 hc⟩
  · rcases Nat.lt_or_ge c 270 with hc2 | hc2
    · exact Or.inr (Or.inl ⟨hc, hc2, h2 hc hc2⟩)
    · exact Or.inr (Or.inr ⟨hc2, h, h3 hc2⟩)

theorem dispatch_phase_partition_witness :
    250 < totalFrames ∧ dispatch 250 = RenderCall.fade (250 - 240) :=
  ⟨by decide, (dispatch_phase_partition 250 (by decide)).2.2.2.1 (by decide) (by decide)⟩

/-- C2: a single invocation of the tick handler renders at most 3 frames,
whatever the driver state and the tick time. -/
theorem tick_renders_at_most_three (s : Driver) (now : Int) :
    (tick s now).2.length ≤ 3 := by
  rw [tick_eq]
  split_ifs <;> simp [loopCount_le]

/-- C3: the frame cursor starts at 0 and, after any sequence of ticks at any
times, is at most totalFrames = 420 and is not decreased by the next tick. -/
theorem frame_cursor_invariant (startTime lastFrameTime : Int) (times : List Int) :
    (Driver.init startTime lastFrameTime).currentFrame = 0 ∧
    totalFrames = 420 ∧
    (run (Driver.init startTime lastFrameTime) times).1.currentFrame ≤ totalFrames ∧
    ∀ now : Int,
      (run (Driver.init startTime lastFrameTime) times).1.currentFrame
        ≤ (tick (run (Driver.init startTime lastFrameTime) times).1 now).1.currentFrame := by
  refine ⟨rfl, by decide, ?_, fun now => tick_currentFrame_le _ now⟩
  have ht : totalFrames = 420 := by decide
  rw [ht]
  exact run_currentFrame_bound _ times (by simp [Driver.init])

/-- C4: every frame index rendered by a tick is at most
`floor(elapsed * fps)`, and a tick entered with the cursor beyond that target
renders nothing and leaves the cursor unchanged. -/
theorem never_renders_ahead (s : Driver) (now : Int) :
    (∀ i ∈ (tick s now).2, (i : Int) ≤ expectedFrame s.startTime now) ∧
    ((s.currentFrame : Int) > expectedFrame s.startTime now →
      (tick s now).2 = [] ∧ (tick s now).1.currentFrame = s.currentFrame) := by
  rw [tick_eq, expectedFrame_eq]
  constructor
  · intro i hi
    split_ifs at hi <;> simp at hi
    obtain ⟨_, hi2⟩ := hi
    unfold loopCount at hi2
    omega
  · intro h
    split_ifs <;> simp

theorem never_renders_ahead_witness :
    (2 : Nat) ∈ (tick (Driver.init 0 0) 100).2 ∧
      ((2 : Nat) : Int) ≤ expectedFrame (Driver.init 0 0).startTime 100 :=
  ⟨by rw [tick_eq]; decide,
    (never_renders_ahead (Driver.init 0 0) 100).1 2 (by rw [tick_eq]; decide)⟩

/-- C6, as stated, fails: on the non-decreasing schedule of one tick per
second the driver stops at the tick at 14 s having rendered only frames
0..38; frame 39 (and every later one) is never rendered. -/
theorem throttled_schedule_drops_frames :
    List.Pairwise (fun a b : Int => a ≤ b) throttledSchedule ∧
    (run (Driver.init 0 0) throttledSchedule).1.running = false ∧
    (run (Driver.init 0 0) throttledSchedule).2 = List.range 39 ∧
    39 < totalFrames ∧
    39 ∉ (run (Driver.init 0 0) throttledSchedule).2 := by
  have hrun : run (Driver.init 0 0) throttledSchedule
      = ({ startTime := 0, currentFrame := 39, lastFrameTime := 13000, running := false },
          List.range 39) := by
    simp only [run, throttledSchedule, tick_eq]
    decide
  rw [hrun]
  refine ⟨by decide, rfl, rfl, by decide, by simp⟩

/-- C6, amended: for every schedule of tick times the frames rendered up to
any point of the run are exactly the indices below the frame cursor, each
once and in increasing order, and the cursor is at most 420; no index below
the cursor is ever left out, but the indices from the final cursor up to 419
stay unrendered when the driver stops first. -/
theorem rendered_frames_contiguous (startTime lastFrameTime : Int) (times : List Int) :
    (run (Driver.init startTime lastFrameTime) times).2
      = List.range (run (Driver.init startTime lastFrameTime) times).1.currentFrame ∧
    (run (Driver.init startTime lastFrameTime) times).1.currentFrame ≤ totalFrames ∧
    ∀ i : Nat, i ∈ (run (Driver.init startTime lastFrameTime) times).2
      ↔ i < (run (Driver.init startTime lastFrameTime) times).1.currentFrame := by
  have hr : (run (Driver.init startTime lastFrameTime) times).2
      = List.range (run (Driver.init startTime lastFrameTime) times).1.currentFrame := by
    rw [run_frames, List.range_eq_range']
    simp [Driver.init]
  have ht : totalFrames = 420 := by decide
  refine ⟨hr, ?_, ?_⟩
  · rw [ht]
    exact run_currentFrame_bound _ times (by simp [Driver.init])
  · intro i
    rw [hr, List.mem_range]

/-! ## Claims about the phase renderers -/

theorem mem_drawLines (frame : Nat) (ls : List Line) (yPos : Nat) (op : DrawOp) :
    op ∈ drawLines frame ls yPos ↔
      ∃ i : Nat, ∃ h : i < ls.length, frame ≥ (ls.get ⟨i, h⟩).frame ∧
        op = DrawOp.fillText (FillStyle.color (ls.get ⟨i, h⟩).color) (ls.get ⟨i, h⟩).text 100
          (yPos + 40 * i) := by
  induction ls generalizing yPos with
  | nil => simp [drawLines]
  | cons line rest ih =>
    simp only [drawLines, List.mem_append, ih]
    constructor
    · rintro (h | ⟨i, hi, hf, rfl⟩)
      · by_cases hf : frame ≥ line.frame
        · rw [if_pos hf] at h
          refine ⟨0, by simp, by simpa using hf, ?_⟩
          simpa using h
        · rw [if_neg hf] at h
          simp at h
      · refine ⟨i + 1, by simpa using hi, by simpa using hf, ?_⟩
        simp only [List.get_eq_getElem, List.getElem_cons_succ]
        congr 1
        omega
    · rintro ⟨i, hi, hf, rfl⟩
      cases i with
      | zero =>
        left
        have hf0 : frame ≥ line.frame := by simpa using hf
        rw [if_pos hf0]
        simp
      | succ j =>
        right
        refine ⟨j, by simpa using hi, by simpa using hf, ?_⟩
        simp only [List.get_eq_getElem, List.getElem_cons_succ]
        congr 1
        omega

theorem drawLines_mono (f f' : Nat) (hff : f ≤ f') (ls : List Line) (yPos : Nat) (op : DrawOp)
    (h : op ∈ drawLines f ls yPos) : op ∈ drawLines f' ls yPos := by
  rw [mem_drawLines] at h ⊢
  obtain ⟨i, hi, hf, rfl⟩ := h
  exact ⟨i, hi, le_trans hf hff, rfl⟩

theorem renderTerminalPhase_mono (width height : Nat) (data : FormData) (f f' : Nat)
    (hff : f ≤ f') (op : DrawOp) (h : op ∈ renderTerminalPhase width height f data) :
    op ∈ renderTerminalPhase width height f' data := by
  simp only [renderTerminalPhase, List.mem_cons, List.mem_append] at h ⊢
  rcases h with h | h | h
  · exact Or.inl h
  · exact Or.inr (Or.inl h)
  · exact Or.inr (Or.inr (drawLines_mono f f' hff _ _ op h))

/-- C7: in renderTerminalPhase the script line at position `i`, with
reveal-frame `r`, is drawn (its text, in its colour, at x = 100 and
y = 180 + 40 i) iff `f >= r`; a line drawn at `f` is drawn at every later
frame, and everything drawn at `f` is still drawn at every later frame. -/
theorem terminal_line_drawn_iff (width height : Nat) (data : FormData) (f i : Nat)
    (hi : i < (lines data).length) :
    (DrawOp.fillText (FillStyle.color ((lines data).get ⟨i, hi⟩).color)
        ((lines data).get ⟨i, hi⟩).text 100 (180 + 40 * i)
          ∈ renderTerminalPhase width height f data
      ↔ f ≥ ((lines data).get ⟨i, hi⟩).frame) ∧
    (∀ f2 : Nat, f < f2 →
      DrawOp.fillText (FillStyle.color ((lines data).get ⟨i, hi⟩).color)
        ((lines data).get ⟨i, hi⟩).text 100 (180 + 40 * i)
          ∈ renderTerminalPhase width height f data →
      DrawOp.fillText (FillStyle.color ((lines data).get ⟨i, hi⟩).color)
        ((lines data).get ⟨i, hi⟩).text 100 (180 + 40 * i)
          ∈ renderTerminalPhase width height f2 data) ∧
    (∀ f2 : Nat, f < f2 → ∀ op : DrawOp,
      op ∈ renderTerminalPhase width height f data →
      op ∈ renderTerminalPhase width height f2 data) := by
  refine ⟨?_, ?_, ?_⟩
  · constructor
    · intro h
      simp only [renderTerminalPhase, List.mem_cons, List.mem_append] at h
      rcases h with h | h | h
      · cases h
      · simp only [drawTerminalHeader, List.mem_cons, List.mem_singleton,
          List.not_mem_nil] at h
        rcases h with h | h | h | h | h | h
        · cases h
        · cases h
        · cases h
        · cases h
        · injection h with _ _ _ hy
          omega
        · exact h.elim
      · rw [mem_drawLines] at h
        obtain ⟨j, hj, hf, heq⟩ := h
        injection heq with _ _ _ hy
        have hij : i = j := by omega
        subst hij
        exact hf
    · intro hf
      simp only [renderTerminalPhase, List.mem_cons, List.mem_append]
      right; right
      rw [mem_drawLines]
      exact ⟨i, hi, hf, rfl⟩
  · intro f2 hlt h
    exact renderTerminalPhase_mono width height data f f2 (le_of_lt hlt) _ h
  · intro f2 hlt op h
    exact renderTerminalPhase_mono width height data f f2 (le_of_lt hlt) op h

theorem terminal_line_drawn_iff_witness :
    6 < (lines sampleData).length ∧
    ((lines sampleData).get ⟨6, by decide⟩).frame = 125 ∧
    DrawOp.fillText (FillStyle.color ((lines sampleData).get ⟨6, by decide⟩).color)
        ((lines sampleData).get ⟨6, by decide⟩).text 100 (180 + 40 * 6)
      ∈ renderTerminalPhase 1920 1080 125 sampleData :=
  ⟨by decide, rfl,
    (terminal_line_drawn_iff 1920 1080 sampleData 125 6 (by decide)).1.mpr (by decide)⟩

/-- C9: on the 1920x1080 surface, for every picture of positive width and
height, the rectangle given to drawImage covers the target region
(x = 0, y = 130, 1920 x 950), keeps the picture's aspect ratio, and overflows
the region by equal amounts on opposite sides. -/
theorem cover_fit (pfpImg : Image) (frame fpsArg : Nat)
    (hw : 0 < pfpImg.width) (hh : 0 < pfpImg.height) :
    (renderPFPPhase 1920 1080 pfpImg frame fpsArg).pfpX = 0 ∧
    (renderPFPPhase 1920 1080 pfpImg frame fpsArg).pfpY = 130 ∧
    (renderPFPPhase 1920 1080 pfpImg frame fpsArg).pfpWidth = 1920 ∧
    (renderPFPPhase 1920 1080 pfpImg frame fpsArg).pfpHeight = 950 ∧
    (renderPFPPhase 1920 1080 pfpImg frame fpsArg).drawX ≤ 0 ∧
    (renderPFPPhase 1920 1080 pfpImg frame fpsArg).drawY ≤ 130 ∧
    (renderPFPPhase 1920 1080 pfpImg frame fpsArg).drawX
      + (renderPFPPhase 1920 1080 pfpImg frame fpsArg).drawWidth ≥ 1920 ∧
    (renderPFPPhase 1920 1080 pfpImg frame fpsArg).drawY
      + (renderPFPPhase 1920 1080 pfpImg frame fpsArg).drawHeight ≥ 1080 ∧
    (renderPFPPhase 1920 1080 pfpImg frame fpsArg).drawWidth
      / (renderPFPPhase 1920 1080 pfpImg frame fpsArg).drawHeight
        = (pfpImg.width : ℚ) / (pfpImg.height : ℚ) ∧
    0 - (renderPFPPhase 1920 1080 pfpImg frame fpsArg).drawX
      = (renderPFPPhase 1920 1080 pfpImg frame fpsArg).drawX
        + (renderPFPPhase 1920 1080 pfpImg frame fpsArg).drawWidth - 1920 ∧
    130 - (renderPFPPhase 1920 1080 pfpImg frame fpsArg).drawY
      = (renderPFPPhase 1920 1080 pfpImg frame fpsArg).drawY
        + (renderPFPPhase 1920 1080 pfpImg frame fpsArg).drawHeight - 1080 := by
  have hwq : (0 : ℚ) < (pfpImg.width : ℚ) := by exact_mod_cast hw
  have hhq : (0 : ℚ) < (pfpImg.height : ℚ) := by exact_mod_cast hh
  have hr : (0 : ℚ) < (pfpImg.width : ℚ) / (pfpImg.height : ℚ) := div_pos hwq hhq
  have harea : (((1920 : ℕ) : ℚ)) / ((((1080 : ℕ) : ℚ)) - 130) = 1920 / 950 := by norm_num
  by_cases hc : (pfpImg.width : ℚ) / (pfpImg.height : ℚ) > 1920 / 950
  · have hgt : (1920 : ℚ) < 950 * ((pfpImg.width : ℚ) / (pfpImg.height : ℚ)) := by
      have := (div_lt_iff₀ (by norm_num : (0 : ℚ) < 950)).mp hc
      linarith
    simp only [renderPFPPhase, harea, if_pos hc]
    norm_num
    exact ⟨by linarith, by linarith, by ring⟩
  · have hle : 950 * ((pfpImg.width : ℚ) / (pfpImg.height : ℚ)) ≤ 1920 := by
      have := (le_div_iff₀ (by norm_num : (0 : ℚ) < 950)).mp (not_lt.mp hc)
      linarith
    have hge : (950 : ℚ) ≤ 1920 / ((pfpImg.width : ℚ) / (pfpImg.height : ℚ)) := by
      rw [le_div_iff₀ hr]
      exact hle
    simp only [renderPFPPhase, harea, if_neg hc]
    norm_num
    exact ⟨by linarith, by linarith, by ring⟩

theorem cover_fit_witness :
    (renderPFPPhase 1920 1080 { width := 400, height := 400 } 0 30).drawY ≤ 130 ∧
    (renderPFPPhase 1920 1080 { width := 400, height := 400 } 0 30).drawY
      + (renderPFPPhase 1920 1080 { width := 400, height := 400 } 0 30).drawHeight ≥ 1080 :=
  ⟨(cover_fit { width := 400, height := 400 } 0 30 (by decide) (by decide)).2.2.2.2.2.1,
    (cover_fit { width := 400, height := 400 } 0 30 (by decide) (by decide)).2.2.2.2.2.2.2.1⟩

end Seismic
